import Mathlib

/-!
Verification of the inference pipeline of `packaging/run_inference.py`.

The script orchestrates: filename canonicalization into nnUNet format,
reorientation to RPI, nnUNet inference, deletion of the temporary folder,
reorientation back to the original orientation, and decomposition of the
multi-class prediction into binary masks according to `--pred-type`.

Volumes loaded with `nib.load(...).get_fdata()` carry integer class labels
(0 background, 1 spinal cord, 2 lesion); we model voxel data as `List Int`
(the flattened array; numpy boolean-mask assignment is elementwise).
Filenames and other strings are modelled as `List Char`.
-/

/-- A filename (or path component), as a list of characters. -/
abbrev Filename := List Char

/-- The three values accepted by `--pred-type` in `get_parser`
(`choices=['sc-seg', 'lesion-seg', 'all']`). -/
inductive PredType where
  | scSeg
  | lesionSeg
  | all
deriving DecidableEq

/-- `np.zeros_like(img)`: an array of zeros of the same shape as `img`. -/
def zerosLike (img : List Int) : List Int := img.map (fun _ => 0)

/-- numpy boolean-mask assignment `base[img == c] = v`: elementwise over the
two same-shaped arrays, positions where `img` equals `c` receive `v`, all
other positions keep their value from `base`. -/
def setWhere (base img : List Int) (c v : Int) : List Int :=
  List.zipWith (fun b x => if x = c then v else b) base img

/-- The `sc-seg` branch of `main`:
`img_sc_seg = np.zeros_like(img); img_sc_seg[img == 1] = 1; img_sc_seg[img == 2] = 1`. -/
def splitScSeg (img : List Int) : List Int :=
  setWhere (setWhere (zerosLike img) img 1 1) img 2 1

/-- The `lesion-seg` branch of `main`:
`img_lesion_seg = np.zeros_like(img); img_lesion_seg[img == 2] = 1`. -/
def splitLesionSeg (img : List Int) : List Int :=
  setWhere (zerosLike img) img 2 1

/-- A NIfTI image as handled by nibabel: voxel data, affine (the spatial
transform mapping voxel indices to physical space) and header metadata. -/
structure Nifti1Image where
  data : List Int
  affine : Fin 4 → Fin 4 → Rat
  header : List (Filename × Filename)

/-- The per-image work of the decomposition stage of `main`: under `sc-seg`
and `lesion-seg` the split data is wrapped in
`nib.Nifti1Image(img_*, img_nii.affine, img_nii.header)`; under `all` the
image file is only renamed, its contents untouched. -/
def decomposePred (p : PredType) (img : Nifti1Image) : Nifti1Image :=
  match p with
  | .scSeg => { data := splitScSeg img.data, affine := img.affine, header := img.header }
  | .lesionSeg => { data := splitLesionSeg img.data, affine := img.affine, header := img.header }
  | .all => img

lemma splitLesionSeg_eq_map (img : List Int) :
    splitLesionSeg img = img.map (fun v => if v = 2 then (1 : Int) else 0) := by
  induction img with
  | nil => rfl
  | cons x xs ih =>
    simp only [splitLesionSeg, zerosLike, setWhere, List.map_cons, List.zipWith_cons_cons] at *
    exact congrArg _ ih

lemma splitScSeg_eq_map (img : List Int) :
    splitScSeg img = img.map (fun v => if v = 1 ∨ v = 2 then (1 : Int) else 0) := by
  induction img with
  | nil => rfl
  | cons x xs ih =>
    simp only [splitScSeg, zerosLike, setWhere, List.map_cons, List.zipWith_cons_cons] at *
    refine congrArg₂ _ ?_ ih
    by_cases h2 : x = 2
    · simp [h2]
    · by_cases h1 : x = 1 <;> simp [h1, h2]

/-- The fixed numeric channel suffix nnUNet requires (`_0000`). -/
def channelSuffix : List Char := "_0000".data

/-- Modelled from the spec: the canonical-name half of
`convert_filenames_to_nnunet_format` from `packaging_utils` (not under
`src/`); §4.1: "a fixed numeric channel suffix appended to a ... base
identity". Maps an original base identity to its canonical nnUNet name. -/
def canonical_name (f : Filename) : Filename := f ++ channelSuffix

/-- Modelled from the spec: the reverse mapping of §3's Identity Mapping,
restoring an original name from a canonical one by stripping the fixed
channel suffix. -/
def original_name (g : Filename) : Filename := g.take (g.length - channelSuffix.length)

/-- Modelled from the spec: `convert_filenames_to_nnunet_format` from
`packaging_utils` (not under `src/`); §4.1: produces the identity mapping
(canonical → original name); a naming collision between canonicalized
names is fatal (§4.1 Failure). -/
def convert_filenames_to_nnunet_format (files : List Filename) :
    Except (List Char) (List (Filename × Filename)) :=
  if (files.map canonical_name).Nodup then
    .ok (files.map (fun f => (canonical_name f, f)))
  else
    .error "naming collision".data

/-- Whether an `Except` value is a success. -/
def isOkE {ε α : Type} : Except ε α → Bool
  | .ok _ => true
  | .error _ => false

/-- The successive side-effecting stages of `main`, in source order. -/
inductive Step where
  | createOutDir
  | convertFilenames
  | captureLedger
  | runInference
  | deleteTmp
  | restoreOrientation
  | decompose (p : PredType)
  | abortCollision
deriving DecidableEq

/-- Which stages read or write the temporary canonicalized folder
`path_data_tmp`: its creation, the in-place RPI reorientation that captures
the orientation ledger, the inference call that reads it, and its deletion.
Stage 4 (restoration and decomposition) works only on `path_out`. -/
def readsTmp : Step → Bool
  | .convertFilenames => true
  | .captureLedger => true
  | .runInference => true
  | .deleteTmp => true
  | _ => false

/-- The sequence of stages executed by `main` for a parsed `--pred-type`:
create the output directory, convert filenames (temporary folder), reorient
to RPI capturing `orig_orientation_dict`, run the predictor, delete the
temporary folder, reorient predictions back, then decompose. A filename
collision in the conversion step aborts before inference. -/
def mainSteps (batch : List Filename) (p : PredType) : List Step :=
  Step.createOutDir ::
    match convert_filenames_to_nnunet_format batch with
    | .error _ => [Step.abortCollision]
    | .ok _ => [Step.convertFilenames, Step.captureLedger, Step.runInference,
                Step.deleteTmp, Step.restoreOrientation, Step.decompose p]

/-- The `choices=['sc-seg', 'lesion-seg', 'all']` validation argparse applies
to `--pred-type` in `get_parser`, before the body of `main` runs. -/
def parsePredType (s : List Char) : Option PredType :=
  if s = "sc-seg".data then some .scSeg
  else if s = "lesion-seg".data then some .lesionSeg
  else if s = "all".data then some .all
  else none

/-- The whole program: `parser.parse_args()` rejects an unrecognized
`--pred-type` (argparse exits with an error), so no pipeline stage runs;
otherwise `main` proceeds with the parsed policy. -/
def rawMain (raw : List Char) (batch : List Filename) : List Step :=
  match parsePredType raw with
  | none => []
  | some p => mainSteps batch p

/-- C1: label decomposition is a pure selection: under `lesion-seg` the output
voxel is 1 exactly where the prediction equals 2 and 0 elsewhere; under
`sc-seg` it is 1 exactly where the prediction equals 1 or 2 and 0 elsewhere;
under `all` the multi-class image is left unchanged (the file is only
renamed). -/
theorem label_decomposition_selection_c1 :
    (∀ img : List Int,
      splitLesionSeg img = img.map (fun v => if v = 2 then (1 : Int) else 0)) ∧
    (∀ img : List Int,
      splitScSeg img = img.map (fun v => if v = 1 ∨ v = 2 then (1 : Int) else 0)) ∧
    (∀ img : Nifti1Image, decomposePred .all img = img) :=
  ⟨splitLesionSeg_eq_map, splitScSeg_eq_map, fun _ => rfl⟩

/-- Python `str.replace(old, new)` for a nonempty pattern `old`: scan left to
right; wherever `old` is a prefix of the remaining input, emit `new` and skip
`old.length` characters, otherwise keep the character. Used by `main` as
`pred.replace('.nii.gz', ...)`. -/
def pyReplace (old new : List Char) : List Char → List Char
  | [] => []
  | c :: rest =>
    if old.isPrefixOf (c :: rest) then
      new ++ pyReplace old new (rest.drop (old.length - 1))
    else
      c :: pyReplace old new rest
termination_by l => l.length
decreasing_by
  · simp only [List.length_drop, List.length_cons]
    omega
  · simp

/-- The `.nii.gz` extension matched by the glob and by each `replace` call. -/
def niiSuffix : List Char := ".nii.gz".data

/-- `save_name = os.path.basename(pred).replace('.nii.gz', <suffix>.nii.gz')`
(for `all`, the rename target `pred.replace('.nii.gz', '_pred.nii.gz')`). -/
def saveName (p : PredType) (n : Filename) : Filename :=
  match p with
  | .all => pyReplace niiSuffix "_pred.nii.gz".data n
  | .scSeg => pyReplace niiSuffix "_pred-sc.nii.gz".data n
  | .lesionSeg => pyReplace niiSuffix "_pred-lesion.nii.gz".data n

/-- `out_folder` as computed in each branch of `main`:
`os.path.join(args.path_out)` for `all`,
`os.path.join(args.path_out, 'sc-seg')` and
`os.path.join(args.path_out, 'lesion-seg')` otherwise (modelling
`os.path.join` on a directory with no trailing slash). -/
def outFolder (p : PredType) (pathOut : List Char) : List Char :=
  match p with
  | .all => pathOut
  | .scSeg => pathOut ++ '/' :: "sc-seg".data
  | .lesionSeg => pathOut ++ '/' :: "lesion-seg".data

/-- A stem has no interior occurrence of `old` when, at every position inside
the stem, `old` is not a prefix of the rest of `stem ++ old`. -/
def noInteriorOcc (old stem : List Char) : Prop :=
  ∀ i : Fin stem.length, old.isPrefixOf ((stem ++ old).drop i.1) = false

instance noInteriorOccDec (old stem : List Char) : Decidable (noInteriorOcc old stem) :=
  inferInstanceAs (Decidable (∀ i : Fin stem.length, old.isPrefixOf ((stem ++ old).drop i.1) = false))

lemma pyReplace_append (old new : List Char) (h0 : old ≠ []) :
    ∀ stem : List Char, noInteriorOcc old stem →
      pyReplace old new (stem ++ old) = stem ++ new := by
  intro stem
  induction stem with
  | nil =>
    intro _
    match old, h0 with
    | c :: t, _ =>
      rw [List.nil_append, pyReplace]
      rw [if_pos (by simp [List.isPrefixOf_iff_prefix])]
      simp [pyReplace]
  | cons c s ih =>
    intro h
    have h0' : old.isPrefixOf ((c :: s ++ old).drop 0) = false := h ⟨0, by simp⟩
    simp only [List.drop_zero, List.cons_append] at h0'
    have hcond : ¬ (old.isPrefixOf (c :: (s ++ old)) = true) := by
      intro hp
      rw [h0'] at hp
      exact Bool.noConfusion hp
    rw [List.cons_append, pyReplace, if_neg hcond]
    rw [ih (fun i => by simpa using h ⟨i.1 + 1, by simp [i.2]⟩)]
    rfl

/-- C5: output layout per decomposition policy: `all` keeps files flat in the
base output directory with suffix `_pred`; `sc-seg` writes into the `sc-seg/`
subfolder with suffix `_pred-sc`; `lesion-seg` writes into the `lesion-seg/`
subfolder with suffix `_pred-lesion` (for prediction filenames whose only
occurrence of `.nii.gz` is the final extension). -/
theorem output_layout_c5 (pathOut stem : List Char) (h : noInteriorOcc niiSuffix stem) :
    outFolder .all pathOut = pathOut ∧
    outFolder .scSeg pathOut = pathOut ++ '/' :: "sc-seg".data ∧
    outFolder .lesionSeg pathOut = pathOut ++ '/' :: "lesion-seg".data ∧
    saveName .all (stem ++ niiSuffix) = stem ++ "_pred.nii.gz".data ∧
    saveName .scSeg (stem ++ niiSuffix) = stem ++ "_pred-sc.nii.gz".data ∧
    saveName .lesionSeg (stem ++ niiSuffix) = stem ++ "_pred-lesion.nii.gz".data := by
  refine ⟨rfl, rfl, rfl, ?_, ?_, ?_⟩ <;>
    exact pyReplace_append niiSuffix _ (by decide) stem h

/-- Witness for `output_layout_c5` on the concrete filename `sub-01_T2w.nii.gz`. -/
theorem output_layout_c5_w :
    saveName .scSeg ("sub-01_T2w".data ++ niiSuffix) = "sub-01_T2w".data ++ "_pred-sc.nii.gz".data :=
  (output_layout_c5 "out".data "sub-01_T2w".data
    (by decide)).2.2.2.2.1

/-- C4: the decomposed masks carry the source prediction's affine and header
unchanged, and the data is a pure per-voxel selection (same length, no
resampling or reorientation). -/
theorem decompose_frame_c4 :
    ∀ img : Nifti1Image,
      (decomposePred .scSeg img).affine = img.affine ∧
      (decomposePred .scSeg img).header = img.header ∧
      (decomposePred .lesionSeg img).affine = img.affine ∧
      (decomposePred .lesionSeg img).header = img.header ∧
      (decomposePred .scSeg img).data
        = img.data.map (fun v => if v = 1 ∨ v = 2 then (1 : Int) else 0) ∧
      (decomposePred .lesionSeg img).data
        = img.data.map (fun v => if v = 2 then (1 : Int) else 0) ∧
      (decomposePred .scSeg img).data.length = img.data.length ∧
      (decomposePred .lesionSeg img).data.length = img.data.length := by
  intro img
  refine ⟨rfl, rfl, rfl, rfl, splitScSeg_eq_map img.data, splitLesionSeg_eq_map img.data, ?_, ?_⟩
  · simp [decomposePred, splitScSeg_eq_map img.data]
  · simp [decomposePred, splitLesionSeg_eq_map img.data]

/-- C3: mapping an original name to its canonical nnUNet name and back
returns the original; canonicalization is injective; and the batch
conversion fails exactly when two canonicalized names coincide, in which
case the inference stage is never reached. -/
theorem identity_roundtrip_c3 :
    (∀ f : Filename, original_name (canonical_name f) = f) ∧
    (∀ f g : Filename, canonical_name f = canonical_name g → f = g) ∧
    (∀ batch : List Filename,
      isOkE (convert_filenames_to_nnunet_format batch) = false
        ↔ ¬ (batch.map canonical_name).Nodup) ∧
    (∀ (batch : List Filename) (p : PredType),
      isOkE (convert_filenames_to_nnunet_format batch) = false →
      Step.runInference ∉ mainSteps batch p) := by
  refine ⟨?_, ?_, ?_, ?_⟩
  · intro f
    unfold original_name canonical_name
    rw [List.length_append, Nat.add_sub_cancel, List.take_left]
  · intro f g h
    exact List.append_cancel_right h
  · intro batch
    by_cases hn : (batch.map canonical_name).Nodup
    · rw [convert_filenames_to_nnunet_format, if_pos hn]
      simp [isOkE, hn]
    · rw [convert_filenames_to_nnunet_format, if_neg hn]
      simp [isOkE, hn]
  · intro batch p h
    cases hc : convert_filenames_to_nnunet_format batch with
    | ok m => rw [hc] at h; exact Bool.noConfusion h
    | error e => simp [mainSteps, hc]

/-- Witness for `identity_roundtrip_c3` on concrete filenames: the round
trip on `sub-01`, injectivity applied at equal inputs, and a batch with a
duplicated name whose conversion fails before inference. -/
theorem identity_roundtrip_c3_w :
    original_name (canonical_name "sub-01".data) = "sub-01".data ∧
    "a".data = "a".data ∧
    isOkE (convert_filenames_to_nnunet_format ["a".data, "a".data]) = false ∧
    Step.runInference ∉ mainSteps ["a".data, "a".data] PredType.all :=
  ⟨identity_roundtrip_c3.1 "sub-01".data,
   identity_roundtrip_c3.2.1 "a".data "a".data rfl,
   (identity_roundtrip_c3.2.2.1 ["a".data, "a".data]).mpr (by decide),
   identity_roundtrip_c3.2.2.2 ["a".data, "a".data] PredType.all
     ((identity_roundtrip_c3.2.2.1 ["a".data, "a".data]).mpr (by decide))⟩

/-- C6: an unrecognized `--pred-type` value is rejected by the argparse
`choices` validation before the body of `main` runs, so no pipeline stage
executes and no file is written. -/
theorem invalid_policy_fatal_c6 :
    ∀ (raw : List Char) (batch : List Filename),
      raw ∉ ["sc-seg".data, "lesion-seg".data, "all".data] →
      rawMain raw batch = [] := by
  intro raw batch h
  have h1 : raw ≠ "sc-seg".data := fun he => h (by simp [he])
  have h2 : raw ≠ "lesion-seg".data := fun he => h (by simp [he])
  have h3 : raw ≠ "all".data := fun he => h (by simp [he])
  rw [rawMain, parsePredType, if_neg h1, if_neg h2, if_neg h3]

/-- Witness for `invalid_policy_fatal_c6` on the concrete value `foo`. -/
theorem invalid_policy_fatal_c6_w :
    rawMain "foo".data ["a".data] = [] :=
  invalid_policy_fatal_c6 "foo".data ["a".data] (by decide)

/-- C8: in every successful run, the temporary folder deletion happens
strictly after the filename conversion (identity mapping) and the RPI
reorientation (orientation ledger capture), and every stage after the
deletion works only on the output directory, never on the temporary
folder. -/
theorem cleanup_order_c8 :
    ∀ (batch : List Filename) (p : PredType),
      isOkE (convert_filenames_to_nnunet_format batch) = true →
      ∃ pre post, mainSteps batch p = pre ++ Step.deleteTmp :: post ∧
        Step.captureLedger ∈ pre ∧ Step.convertFilenames ∈ pre ∧
        ∀ s ∈ post, readsTmp s = false := by
  intro batch p h
  cases hc : convert_filenames_to_nnunet_format batch with
  | error e => rw [hc] at h; exact Bool.noConfusion h
  | ok m =>
    refine ⟨[Step.createOutDir, Step.convertFilenames, Step.captureLedger, Step.runInference],
            [Step.restoreOrientation, Step.decompose p], ?_, ?_, ?_, ?_⟩
    · simp [mainSteps, hc]
    · simp
    · simp
    · intro s hs
      simp only [List.mem_cons, List.not_mem_nil, or_false] at hs
      rcases hs with rfl | rfl <;> rfl

/-- Witness for `cleanup_order_c8` on the empty batch with policy `all`. -/
theorem cleanup_order_c8_w :
    ∃ pre post, mainSteps [] PredType.all = pre ++ Step.deleteTmp :: post ∧
      Step.captureLedger ∈ pre ∧ Step.convertFilenames ∈ pre ∧
      ∀ s ∈ post, readsTmp s = false :=
  cleanup_order_c8 [] PredType.all (by decide)

/-- Python `s.split(sep)` on a single-character separator: splits into the
(always nonempty) list of chunks between occurrences of `sep`. -/
def splitChar (sep : Char) : List Char → List (List Char)
  | [] => [[]]
  | c :: rest =>
    if c = sep then [] :: splitChar sep rest
    else
      match splitChar sep rest with
      | [] => [[c]]
      | h :: t => (c :: h) :: t

/-- The numeric value of a decimal digit, `none` otherwise. -/
def digitVal (c : Char) : Option Nat :=
  if '0' ≤ c ∧ c ≤ '9' then some (c.toNat - '0'.toNat) else none

/-- Python `int(s)` on a plain decimal-digit string; `none` models the
`ValueError` raised on an empty or non-numeric string. -/
def parseNat (s : List Char) : Option Nat :=
  if s = [] then none
  else
    s.foldl
      (fun acc c =>
        match acc, digitVal c with
        | some n, some d => some (10 * n + d)
        | _, _ => none)
      (some 0)

/-- An entry of a directory listing: `os.listdir` returns the names of both
files and subdirectories; whether the entry is a directory is recorded here
only so that the spec-side selection can be stated. -/
structure DirEntry where
  name : List Char
  dirFlag : Bool
deriving DecidableEq

/-- The fold-directory name pattern `fold_`. -/
def foldPat : List Char := "fold_".data

/-- `int(f.split('_')[-1])` applied to an entry name. -/
def intSuffix (s : List Char) : Option Nat :=
  parseNat ((splitChar '_' s).getLastD [])

/-- Fold discovery in `main`:
`[int(f.split('_')[-1]) for f in os.listdir(args.path_model) if f.startswith('fold_')]`.
`os.listdir` yields every entry name, file or subdirectory alike. -/
def folds_avail (listing : List DirEntry) : List (Option Nat) :=
  (listing.filter (fun e => foldPat.isPrefixOf e.name)).map (fun e => intSuffix e.name)

/-- Follows the spec's words (§6): fold discovery selects "any subdirectory
matching the prefix pattern" — i.e. only entries that are directories. -/
def foldsSpecSelection (listing : List DirEntry) : List (Option Nat) :=
  (listing.filter (fun e => e.dirFlag && foldPat.isPrefixOf e.name)).map
    (fun e => intSuffix e.name)

/-- C7 counterexample: a model directory whose listing contains the
subdirectory `fold_0` and a plain file named `fold_9`: the code selects
{0, 9}, while the claim's subdirectories-only selection yields {0}. -/
theorem fold_discovery_cex_c7 :
    folds_avail [⟨"fold_0".data, true⟩, ⟨"fold_9".data, false⟩] ≠
      foldsSpecSelection [⟨"fold_0".data, true⟩, ⟨"fold_9".data, false⟩] := by
  decide

/-- C7 (amended): fold discovery selects the integer suffixes of all
directory entries — files and subdirectories alike — whose names start with
`fold_`; when every entry is a directory this coincides with the spec's
subdirectory selection, and non-contiguous fold sets such as
`fold_0, fold_1, fold_3` yield exactly {0, 1, 3}. -/
theorem fold_discovery_amended_c7 :
    (∀ listing : List DirEntry, (∀ e ∈ listing, e.dirFlag = true) →
      folds_avail listing = foldsSpecSelection listing) ∧
    folds_avail [⟨"fold_0".data, true⟩, ⟨"fold_1".data, true⟩, ⟨"fold_3".data, true⟩]
      = [some 0, some 1, some 3] := by
  constructor
  · intro listing hd
    have hf : listing.filter (fun e => e.dirFlag && foldPat.isPrefixOf e.name)
        = listing.filter (fun e => foldPat.isPrefixOf e.name) :=
      List.filter_congr (fun e he => by rw [hd e he, Bool.true_and])
    unfold folds_avail foldsSpecSelection
    rw [hf]
  · decide

/-- Witness for `fold_discovery_amended_c7` on a listing of directories. -/
theorem fold_discovery_amended_c7_w :
    folds_avail [⟨"fold_0".data, true⟩] = foldsSpecSelection [⟨"fold_0".data, true⟩] :=
  fold_discovery_amended_c7.1 [⟨"fold_0".data, true⟩] (by decide)

/-- `torch.device('cuda', 0)` or `torch.device('cpu')`. -/
inductive Device where
  | cpu
  | cuda (idx : Nat)
deriving DecidableEq

/-- The keyword arguments `main` passes to `predict_from_raw_data`. -/
structure PredictorArgs where
  tile_step_size : Rat
  use_gaussian : Bool
  use_mirroring : Bool
  perform_everything_on_gpu : Bool
  device : Device
  verbose : Bool
  save_probabilities : Bool
  overwrite : Bool
  checkpoint_name : List Char
  num_processes_preprocessing : Nat
  num_processes_segmentation_export : Nat
deriving DecidableEq

/-- The predictor invocation in `main`, with the three caller-controlled
inputs (`--use-gpu`, `--use-best-checkpoint`, `--tile-step-size`) and every
other setting fixed in the source. -/
def buildPredictorArgs (use_gpu use_best_checkpoint : Bool) (tile : Rat) : PredictorArgs :=
  { tile_step_size := tile
    use_gaussian := true
    use_mirroring := false
    perform_everything_on_gpu := if use_gpu then true else false
    device := if use_gpu then Device.cuda 0 else Device.cpu
    verbose := false
    save_probabilities := false
    overwrite := true
    checkpoint_name :=
      if use_best_checkpoint = false then "checkpoint_final.pth".data
      else "checkpoint_best.pth".data
    num_processes_preprocessing := 3
    num_processes_segmentation_export := 3 }

/-- C9: the inference engine is always invoked with gaussian smoothing on,
test-time mirroring off, overwrite on, and 3 + 3 worker processes, for every
caller configuration; only the device, the tile overlap step size, and the
checkpoint variant (final by default, best when requested) depend on the
caller's inputs. -/
theorem inference_settings_c9 :
    ∀ (g b : Bool) (t : Rat),
      (buildPredictorArgs g b t).use_gaussian = true ∧
      (buildPredictorArgs g b t).use_mirroring = false ∧
      (buildPredictorArgs g b t).overwrite = true ∧
      (buildPredictorArgs g b t).save_probabilities = false ∧
      (buildPredictorArgs g b t).num_processes_preprocessing = 3 ∧
      (buildPredictorArgs g b t).num_processes_segmentation_export = 3 ∧
      (buildPredictorArgs g b t).tile_step_size = t ∧
      (buildPredictorArgs g b t).device = (if g then Device.cuda 0 else Device.cpu) ∧
      (buildPredictorArgs g b t).checkpoint_name =
        (if b then "checkpoint_best.pth".data else "checkpoint_final.pth".data) := by
  intro g b t
  refine ⟨rfl, rfl, rfl, rfl, rfl, rfl, rfl, rfl, ?_⟩
  cases b <;> rfl

/-- The contents of the base output directory (`path_out`, the `.nii.gz`
prediction files the glob sees) and of its policy subfolders. -/
structure OutState where
  base : List (Filename × Nifti1Image)
  sub : List (List Char × Filename × Nifti1Image)

/-- One iteration of the `sc-seg` / `lesion-seg` loop body of `main`: load a
prediction from the base folder, decompose it, and save the mask as a new
file in the policy subfolder. -/
def writeMask (folder : List Char) (p : PredType) (st : OutState)
    (fi : Filename × Nifti1Image) : OutState :=
  { base := st.base, sub := st.sub ++ [(folder, saveName p fi.1, decomposePred p fi.2)] }

/-- The decomposition stage of `main` as a transformation of the output
directory: under `all` each prediction file is renamed in place; under
`sc-seg` and `lesion-seg` the loop writes one mask per prediction into the
policy subfolder. -/
def decomposeStage (p : PredType) (st : OutState) : OutState :=
  match p with
  | .all => { base := st.base.map (fun fi => (saveName .all fi.1, fi.2)), sub := st.sub }
  | .scSeg => st.base.foldl (writeMask "sc-seg".data .scSeg) st
  | .lesionSeg => st.base.foldl (writeMask "lesion-seg".data .lesionSeg) st

lemma foldl_writeMask (folder : List Char) (p : PredType) :
    ∀ (l : List (Filename × Nifti1Image)) (st : OutState),
      (l.foldl (writeMask folder p) st).base = st.base ∧
      (l.foldl (writeMask folder p) st).sub
        = st.sub ++ l.map (fun fi => (folder, saveName p fi.1, decomposePred p fi.2)) := by
  intro l
  induction l with
  | nil => intro st; simp
  | cons x xs ih =>
    intro st
    rcases ih (writeMask folder p st x) with ⟨hb, hs⟩
    refine ⟨hb, ?_⟩
    rw [List.foldl_cons, hs]
    simp [writeMask]

/-- C10: under `sc-seg` and `lesion-seg` the restored multi-class prediction
files in the base output directory are left in place untouched; the binary
masks are appended as new files in the policy subfolder. -/
theorem base_preserved_c10 :
    ∀ st : OutState,
      (decomposeStage .scSeg st).base = st.base ∧
      (decomposeStage .lesionSeg st).base = st.base ∧
      (decomposeStage .scSeg st).sub
        = st.sub ++ st.base.map
            (fun fi => ("sc-seg".data, saveName .scSeg fi.1, decomposePred .scSeg fi.2)) ∧
      (decomposeStage .lesionSeg st).sub
        = st.sub ++ st.base.map
            (fun fi => ("lesion-seg".data, saveName .lesionSeg fi.1, decomposePred .lesionSeg fi.2)) := by
  intro st
  refine ⟨(foldl_writeMask _ _ st.base st).1, (foldl_writeMask _ _ st.base st).1,
    (foldl_writeMask _ _ st.base st).2, (foldl_writeMask _ _ st.base st).2⟩

/-- A signed axis permutation, the spatial-transform content relevant to
orientation (§9: "the finite set of 48 possible orthogonal orientation
codes"): `fwd` sends each voxel axis to its anatomical axis, `bwd` is its
inverse, and `sign i` tells whether anatomical axis `i` is traversed in the
negative direction. -/
structure SignedPerm where
  fwd : Fin 3 → Fin 3
  bwd : Fin 3 → Fin 3
  sign : Fin 3 → Bool

/-- A signed permutation is valid when `bwd` really inverts `fwd` (§4.2
Failure: a transform that does not resolve to a valid orientation code is
rejected; we only reason about valid ones). -/
def validSP (g : SignedPerm) : Prop :=
  ∀ i : Fin 3, g.bwd (g.fwd i) = i ∧ g.fwd (g.bwd i) = i

instance validSPDec (g : SignedPerm) : Decidable (validSP g) :=
  inferInstanceAs (Decidable (∀ i : Fin 3, g.bwd (g.fwd i) = i ∧ g.fwd (g.bwd i) = i))

/-- Apply an axis direction sign. -/
def apSign (b : Bool) (x : Int) : Int := if b then -x else x

/-- The action of a signed permutation on a voxel coordinate vector. -/
def act (g : SignedPerm) (x : Fin 3 → Int) : Fin 3 → Int :=
  fun i => apSign (g.sign i) (x (g.bwd i))

/-- The inverse signed permutation. -/
def invSP (g : SignedPerm) : SignedPerm :=
  { fwd := g.bwd, bwd := g.fwd, sign := fun i => g.sign (g.fwd i) }

/-- The canonical RPI code the model was trained with, taken as the identity
signed permutation. -/
def rpi : SignedPerm :=
  { fwd := fun i => i, bwd := fun i => i, sign := fun _ => false }

/-- The LAS code: same axis order as RPI with all three directions
flipped. -/
def las : SignedPerm :=
  { fwd := fun i => i, bwd := fun i => i, sign := fun _ => true }

/-- The letter of one anatomical axis direction, with RPI as the canonical
positive directions (so the flipped letters read L, A, S). -/
def axisLetter (a : Fin 3) (neg : Bool) : Char :=
  if a = 0 then (if neg then 'L' else 'R')
  else if a = 1 then (if neg then 'A' else 'P')
  else (if neg then 'S' else 'I')

/-- The 3-letter orientation code of a spatial transform (§3: "derivable
deterministically from a volume's spatial transform"): the anatomical
direction each voxel axis points along. -/
def codeName (g : SignedPerm) : List Char :=
  [axisLetter (g.fwd 0) (g.sign (g.fwd 0)),
   axisLetter (g.fwd 1) (g.sign (g.fwd 1)),
   axisLetter (g.fwd 2) (g.sign (g.fwd 2))]

/-- A volume: voxel intensities over integer voxel coordinates plus its
spatial transform (we keep the orientation-relevant signed-permutation part;
§3's Volume invariant is that the two travel together). -/
structure Volume where
  data : (Fin 3 → Int) → Int
  affine : SignedPerm

/-- Reorientation of a volume to target code `t`: the voxel array is
re-indexed and the spatial transform replaced so that every voxel keeps its
physical-space coordinates (§4.2 Invariant: the transform is recomputed, not
relabeled, and physical coordinates are unchanged). -/
def reorient (v : Volume) (t : SignedPerm) : Volume :=
  { data := fun x => v.data (act (invSP v.affine) (act t x)), affine := t }

/-- Modelled from the spec: `reorient_to_rpi` from `packaging_utils` (not
under `src/`), per volume: reorient to the canonical RPI code and record the
original orientation (the ledger entry) for later restoration. -/
def reorient_to_rpi (v : Volume) : Volume × SignedPerm :=
  (reorient v rpi, v.affine)

/-- Modelled from the spec: `reorient_to_original_orientation` from
`packaging_utils` (not under `src/`), per volume: reorient a prediction back
to the original orientation recorded in the ledger. -/
def reorient_to_original_orientation (p : Volume × SignedPerm) : Volume :=
  reorient p.1 p.2

lemma apSign_apSign (b : Bool) (x : Int) : apSign b (apSign b x) = x := by
  cases b <;> simp [apSign]

lemma act_inv_act (g : SignedPerm) (hg : validSP g) (x : Fin 3 → Int) :
    act (invSP g) (act g x) = x := by
  funext i
  show apSign (g.sign (g.fwd i)) (apSign (g.sign (g.fwd i)) (x (g.bwd (g.fwd i)))) = x i
  rw [apSign_apSign, (hg i).1]

/-- C2: orientation round-trip: for every volume with a valid spatial
transform, restoring after normalization recovers the volume exactly — data
and spatial transform — the normalized volume carries the canonical RPI
code, and the final orientation code equals the original one. -/
theorem orientation_roundtrip_c2 :
    ∀ v : Volume, validSP v.affine →
      reorient_to_original_orientation (reorient_to_rpi v) = v ∧
      codeName (reorient_to_rpi v).1.affine = "RPI".data ∧
      codeName (reorient_to_original_orientation (reorient_to_rpi v)).affine
        = codeName v.affine := by
  intro v hv
  have heq : reorient_to_original_orientation (reorient_to_rpi v) = v := by
    cases v with
    | mk d a =>
      have hd : (fun x => d (act (invSP a) (act a x))) = d :=
        funext (fun x => by rw [act_inv_act a hv])
      show Volume.mk (fun x => d (act (invSP a) (act a x))) a = Volume.mk d a
      rw [hd]
  exact ⟨heq, by show codeName rpi = "RPI".data; decide, by rw [heq]⟩

/-- A concrete volume in LAS orientation. -/
def lasVolume : Volume := { data := fun _ => 0, affine := las }

/-- Witness for `orientation_roundtrip_c2`: an input volume with orientation
code LAS is recovered exactly by the normalize-restore round trip. -/
theorem orientation_roundtrip_c2_w :
    codeName lasVolume.affine = "LAS".data ∧
    reorient_to_original_orientation (reorient_to_rpi lasVolume) = lasVolume :=
  ⟨by decide, (orientation_roundtrip_c2 lasVolume (by decide)).1⟩
